import Mathlib

/-!
# Verification of the `cint` validation pipeline

A shallow embedding of the orchestration and diagnostic-extraction code of
the `cint` configuration linter (`validate.go`, `main.go`).  The CUE
constraint engine, the filesystem and the YAML/JSON decoders are external
collaborators; they are modelled as an explicit environment (`Env`) of
oracle functions, exactly mirroring the call surface the Go code uses:
reading a file, compiling the schema, decoding a document, looking up
`#Config` and validating the unified value.  Everything downstream of those
calls — branching, result construction, error extraction, path formatting —
is translated statement by statement from the Go source.
-/

/-- One independent constraint violation, as exposed by the engine error
list `errors.Errors(err)`: the line numbers of its attached source
positions (in scan order, `pos.Line()`), its path segments (`e.Path()`),
and its rendered message (`e.Error()`). -/
structure CueViolation where
  lines : List Int
  path : List String
  msg : String
deriving DecidableEq

/-- An opaque engine error: its own rendered message (`err.Error()`) and
the list of violations `errors.Errors(err)` decomposes it into. -/
structure CueError where
  msg : String
  violations : List CueViolation
deriving DecidableEq

/-- An engine-native value as produced by a decoder: an opaque identity and
the error carried by the value (`config.Err()`), if any. -/
structure CueValue where
  id : Nat
  err : Option CueError
deriving DecidableEq

/-- A compiled schema: whether `schema.LookupPath("#Config")` exists, and
the outcome of `configDef.Unify(config).Validate(cue.Concrete(true))` for a
given decoded document (`none` = success). -/
structure Schema where
  hasConfigDef : Bool
  validate : CueValue → Option CueError

/-- The external collaborators of one run: the result of
`loadSchema` (read + compile of the schema file), `os.ReadFile` per config
path, and the two format decoders (each already wrapping its own failure
message, as `parseYAML`/`parseJSON` do). -/
structure Env where
  loadSchema : Except String Schema
  readFile : String → Except String String
  parseYAML : String → String → Except String CueValue
  parseJSON : String → String → Except String CueValue

/-- Record `ValidationError` of `validate.go`: line number, field path, message. -/
structure ValidationError where
  line : Int
  field : String
  problem : String
deriving DecidableEq

/-- Record `ValidationResult` of `validate.go`: one per input file. -/
structure ValidationResult where
  fileName : String
  isValid : Bool
  errors : List ValidationError
deriving DecidableEq

/-- Scan loop of `extractLineNumber`: first line number `> 0`, else `0`. -/
def firstPositiveLine : List Int → Int
  | [] => 0
  | l :: rest => if 0 < l then l else firstPositiveLine rest

/-- Function `extractLineNumber`: scan the violation's positions in order and return
the first positive line, else `0`. -/
def extractLineNumber (e : CueViolation) : Int :=
  firstPositiveLine e.lines

/-- Test `strings.HasPrefix(p, "[")`: the first character is `[`. -/
def startsWithBracket (p : String) : Bool :=
  match p.data with
  | [] => false
  | c :: _ => c = '['

/-- Function `isValidPathElement`: a path element is kept when it is non-empty, does
not start with `[`, and is not the root definition name `#Config`. -/
def isValidPathElement (p : String) : Bool :=
  p != "" && !(startsWithBracket p) && p != "#Config"

/-- Go call `strings.Trim` with a quote cutset: remove leading and trailing quote characters. -/
def trimQuotes (s : String) : String :=
  String.mk (((s.data.dropWhile (fun c => c = '"')).reverse.dropWhile
    (fun c => c = '"')).reverse)

/-- The retained, quote-trimmed segments built by the loop in `formatPath`. -/
def pathParts (path : List String) : List String :=
  (path.filter isValidPathElement).map trimQuotes

/-- Function `formatPath`: keep valid elements, trim quotes, dot-join. -/
def formatPath (path : List String) : String :=
  String.intercalate "." (pathParts path)

/-- Function `extractFieldPath`: empty for an empty engine path, else `formatPath`. -/
def extractFieldPath (e : CueViolation) : String :=
  if e.path = [] then "" else formatPath e.path

/-- Function `extractSingleError`: line, field path and message of one violation. -/
def extractSingleError (e : CueViolation) : ValidationError :=
  { line := extractLineNumber e, field := extractFieldPath e, problem := e.msg }

/-- Function `extractValidationErrors`: decompose the error; if decomposition yields
nothing, fall back to one raw-message error (line 0, field ""). -/
def extractValidationErrors (err : CueError) : List ValidationError :=
  match err.violations with
  | [] => [{ line := 0, field := "", problem := err.msg }]
  | vs => vs.map extractSingleError

/-- Function `createErrorResult`: a single-error invalid result, its one error having line 0 and field "". -/
def createErrorResult (fileName : String) (problem : String) : ValidationResult :=
  { fileName := fileName, isValid := false,
    errors := [{ line := 0, field := "", problem := problem }] }

/-- Function `createValidationErrorResult`: invalid result with extracted errors. -/
def createValidationErrorResult (fileName : String) (err : CueError) : ValidationResult :=
  { fileName := fileName, isValid := false,
    errors := extractValidationErrors err }

/-- Function `createSchemaErrorResults`: one identical invalid result per requested
config path when schema loading failed. -/
def createSchemaErrorResults (configPaths : List String) (e : String) : List ValidationResult :=
  configPaths.map fun path =>
    { fileName := path, isValid := false,
      errors := [{ line := 0, field := "",
                   problem := "failed to load schema: " ++ e }] }

/-- Go call `strings.ToLower`: lowercase every character. -/
def stringToLower (s : String) : String :=
  String.mk (s.data.map Char.toLower)

/-- Scan loop of `filepath.Ext`: walk the path backwards until a separator,
returning the suffix from the first dot met. -/
def extScan : List Char → List Char → String
  | [], _ => ""
  | c :: rest, acc =>
    if c = '/' then ""
    else if c = '.' then String.mk ('.' :: acc)
    else extScan rest (c :: acc)

/-- Go call `filepath.Ext`: the suffix beginning at the final dot in the final path
element; empty when the final element has no dot. -/
def fileExt (path : String) : String :=
  extScan path.data.reverse []

/-- Function `parseConfigFile`: dispatch on the lowercased extension; `.yaml`/`.yml`
to the YAML decoder, `.json` to the JSON decoder, anything else is an
unsupported-format error naming the extension and the supported set. -/
def parseConfigFile (env : Env) (configPath : String) (configData : String) :
    Except String CueValue :=
  let ext := stringToLower (fileExt configPath)
  if ext = ".yaml" ∨ ext = ".yml" then env.parseYAML configPath configData
  else if ext = ".json" then env.parseJSON configPath configData
  else .error ("unsupported file format: " ++ ext ++ " (supported: .yaml, .yml, .json)")

/-- Function `validateFile`: read, decode, check the value error, look up `#Config`,
unify and validate; each failure produces this file's error result. -/
def validateFile (env : Env) (schema : Schema) (configPath : String) : ValidationResult :=
  match env.readFile configPath with
  | .error e => createErrorResult configPath ("failed to read file: " ++ e)
  | .ok configData =>
    match parseConfigFile env configPath configData with
    | .error e => createErrorResult configPath e
    | .ok config =>
      match config.err with
      | some ce => createValidationErrorResult configPath ce
      | none =>
        if !schema.hasConfigDef then
          createErrorResult configPath "schema does not define #Config"
        else
          match schema.validate config with
          | some ce => createValidationErrorResult configPath ce
          | none => { fileName := configPath, isValid := true, errors := [] }

/-- Function `ValidateFiles`: compile the schema once; on failure synthesize the
uniform schema-error results, otherwise validate each file in order. -/
def ValidateFiles (env : Env) (configPaths : List String) : List ValidationResult :=
  match env.loadSchema with
  | .error e => createSchemaErrorResults configPaths e
  | .ok schema => configPaths.map (validateFile env schema)

/-- Function `determineExitCode` of `main.go`: 1 when any result is invalid, else 0. -/
def determineExitCode : List ValidationResult → Nat
  | [] => 0
  | r :: rest => if !r.isValid then 1 else determineExitCode rest

/-! ## Concrete test environments -/

/-- A schema that defines `#Config` and accepts every document. -/
def schemaOk : Schema :=
  { hasConfigDef := true, validate := fun _ => none }

/-- A compiled schema that lacks the `#Config` definition. -/
def schemaNoDef : Schema :=
  { hasConfigDef := false, validate := fun _ => none }

/-- An environment whose schema compiles and whose reads/decodes succeed. -/
def envOk : Env :=
  { loadSchema := .ok schemaOk,
    readFile := fun _ => .ok "name: svc",
    parseYAML := fun _ _ => .ok { id := 0, err := none },
    parseJSON := fun _ _ => .ok { id := 1, err := none } }

/-- Environment like `envOk` but the file `b.yaml` is unreadable. -/
def envOk2 : Env :=
  { loadSchema := .ok schemaOk,
    readFile := fun p => if p = "b.yaml" then .error "permission denied" else .ok "name: svc",
    parseYAML := fun _ _ => .ok { id := 0, err := none },
    parseJSON := fun _ _ => .ok { id := 1, err := none } }

/-- An environment whose schema fails to load. -/
def envBad : Env :=
  { loadSchema := .error "boom",
    readFile := fun _ => .ok "name: svc",
    parseYAML := fun _ _ => .ok { id := 0, err := none },
    parseJSON := fun _ _ => .ok { id := 1, err := none } }

/-- Schema compiles but lacks `#Config`; every file read fails. -/
def envNoDefUnreadable : Env :=
  { loadSchema := .ok schemaNoDef,
    readFile := fun _ => .error "no such file",
    parseYAML := fun _ _ => .ok { id := 0, err := none },
    parseJSON := fun _ _ => .ok { id := 1, err := none } }

/-- Schema compiles but lacks `#Config`; reads and decodes succeed. -/
def envNoDef : Env :=
  { loadSchema := .ok schemaNoDef,
    readFile := fun _ => .ok "name: svc",
    parseYAML := fun _ _ => .ok { id := 0, err := none },
    parseJSON := fun _ _ => .ok { id := 1, err := none } }

/-! ## Helper lemmas -/

/-- Unfolding lemma: when the schema loads, `ValidateFiles` maps
`validateFile` over the config paths. -/
theorem ValidateFiles_ok (env : Env) (schema : Schema)
    (h : env.loadSchema = .ok schema) (configPaths : List String) :
    ValidateFiles env configPaths = configPaths.map (validateFile env schema) := by
  unfold ValidateFiles
  rw [h]

/-- Unfolding lemma: when schema loading fails, `ValidateFiles` produces
the synthesized schema-error results. -/
theorem ValidateFiles_err (env : Env) (e : String)
    (h : env.loadSchema = .error e) (configPaths : List String) :
    ValidateFiles env configPaths = createSchemaErrorResults configPaths e := by
  unfold ValidateFiles
  rw [h]

/-- Every result of `validateFile` carries the requested path. -/
theorem validateFile_fileName (env : Env) (schema : Schema) (p : String) :
    (validateFile env schema p).fileName = p := by
  unfold validateFile
  repeat' split
  all_goals rfl

/-- The extractor never returns an empty diagnostic list. -/
theorem extractValidationErrors_ne_nil (err : CueError) :
    extractValidationErrors err ≠ [] := by
  unfold extractValidationErrors
  cases h : err.violations with
  | nil => simp
  | cons v vs => simp

/-- A `validateFile` result is valid exactly when its error list is empty. -/
theorem validateFile_valid_iff (env : Env) (schema : Schema) (p : String) :
    (validateFile env schema p).isValid = true ↔ (validateFile env schema p).errors = [] := by
  unfold validateFile
  repeat' split
  all_goals
    simp [createErrorResult, createValidationErrorResult, extractValidationErrors_ne_nil]

/-- Mapping a path-preserving result constructor and then projecting the
file name gives back the paths. -/
theorem map_fileName_of_preserving (f : String → ValidationResult)
    (hf : ∀ p : String, (f p).fileName = p) (paths : List String) :
    (paths.map f).map (fun r => r.fileName) = paths := by
  rw [List.map_map]
  have h : ∀ p ∈ paths, ((fun r => r.fileName) ∘ f) p = p := fun p _ => hf p
  rw [List.map_congr_left h]
  simp

/-! ## C1 -/

/-- C1: for every schema path outcome and every list of config paths,
`ValidateFiles` returns exactly one `ValidationResult` per requested config
path, carrying that path, in the same order as the input paths — in both
the schema-failure branch and the normal per-file branch. -/
theorem C1_one_result_per_path_in_order (env : Env) (configPaths : List String) :
    (ValidateFiles env configPaths).map (fun r => r.fileName) = configPaths ∧
    (ValidateFiles env configPaths).length = configPaths.length := by
  unfold ValidateFiles
  cases env.loadSchema with
  | error e =>
    constructor
    · exact map_fileName_of_preserving _ (fun p => rfl) configPaths
    · simp [createSchemaErrorResults]
  | ok schema =>
    constructor
    · exact map_fileName_of_preserving _ (validateFile_fileName env schema) configPaths
    · simp

/-! ## C2 -/

/-- C2: every `ValidationResult` produced by `ValidateFiles` has
`isValid = true` if and only if its error list is empty; no reachable
result pairs validity with a non-empty list or invalidity with an empty
one. -/
theorem C2_valid_iff_no_errors (env : Env) (configPaths : List String)
    (r : ValidationResult) (h : r ∈ ValidateFiles env configPaths) :
    r.isValid = true ↔ r.errors = [] := by
  unfold ValidateFiles at h
  cases hl : env.loadSchema with
  | error e =>
    rw [hl] at h
    simp only [createSchemaErrorResults, List.mem_map] at h
    obtain ⟨p, _, rfl⟩ := h
    simp
  | ok schema =>
    rw [hl] at h
    simp only [List.mem_map] at h
    obtain ⟨p, _, rfl⟩ := h
    exact validateFile_valid_iff env schema p

/-- Witness for C2 at a concrete run whose single result is valid. -/
theorem C2_valid_iff_no_errors_witness :
    (({ fileName := "a.yaml", isValid := true, errors := [] } : ValidationResult).isValid = true
      ↔ ({ fileName := "a.yaml", isValid := true, errors := [] } : ValidationResult).errors = []) :=
  C2_valid_iff_no_errors envOk ["a.yaml"]
    { fileName := "a.yaml", isValid := true, errors := [] } (by decide)

/-! ## C3 -/

/-- C3: if schema loading fails, every requested config path yields exactly
one invalid result carrying exactly one error with line 0, field "" and a
message containing the schema-load failure; the outcome is independent of
the config files (none is read or decoded). -/
theorem C3_schema_failure_uniform (env : Env) (configPaths : List String)
    (e : String) (h : env.loadSchema = .error e) :
    ValidateFiles env configPaths = createSchemaErrorResults configPaths e ∧
    (∀ i : Nat, (ValidateFiles env configPaths)[i]? = (configPaths[i]?).map
      (fun p => { fileName := p, isValid := false,
                  errors := [{ line := 0, field := "",
                               problem := "failed to load schema: " ++ e }] })) ∧
    (∀ r ∈ ValidateFiles env configPaths, r.isValid = false ∧
      r.errors.length = 1 ∧
      ∀ er ∈ r.errors, er.line = 0 ∧ er.field = "" ∧
        ∃ pre, er.problem = pre ++ e) ∧
    (∀ env2 : Env, env2.loadSchema = .error e →
      ValidateFiles env2 configPaths = ValidateFiles env configPaths) := by
  have h0 := ValidateFiles_err env e h configPaths
  refine ⟨h0, ?_, ?_, ?_⟩
  · intro i
    rw [h0]
    simp [createSchemaErrorResults, List.getElem?_map]
  · intro r hr
    rw [h0] at hr
    simp only [createSchemaErrorResults, List.mem_map] at hr
    obtain ⟨p, _, rfl⟩ := hr
    refine ⟨rfl, rfl, ?_⟩
    intro er her
    simp only [List.mem_singleton] at her
    subst her
    exact ⟨rfl, rfl, "failed to load schema: ", rfl⟩
  · intro env2 h2
    rw [h0, ValidateFiles_err env2 e h2 configPaths]

/-- Witness for C3: a concrete failing schema load. -/
theorem C3_schema_failure_uniform_witness :
    (ValidateFiles envBad ["a.yaml"])[0]? =
      some { fileName := "a.yaml", isValid := false,
             errors := [{ line := 0, field := "",
                          problem := "failed to load schema: boom" }] } := by
  have h := (C3_schema_failure_uniform envBad ["a.yaml"] "boom" rfl).2.1 0
  simpa using h

/-! ## C10 -/

/-- C10: for the empty list of config paths `ValidateFiles` returns the
empty result list in both branches, and `determineExitCode` of that empty
list is 0. -/
theorem C10_empty_input_empty_results (env : Env) :
    ValidateFiles env [] = [] ∧
    determineExitCode (ValidateFiles env []) = 0 ∧
    determineExitCode [] = 0 := by
  have h1 : ValidateFiles env [] = [] := by
    unfold ValidateFiles
    cases env.loadSchema with
    | error e => rfl
    | ok schema => rfl
  exact ⟨h1, by rw [h1]; rfl, rfl⟩

/-! ## C6 -/

/-- C6: for every validation-failure error, `extractValidationErrors`
returns a non-empty list — one entry per decomposed violation when
decomposition yields violations, otherwise exactly one fallback error with
line 0, field "" and the raw failure message. -/
theorem C6_extractor_nonempty (err : CueError) :
    extractValidationErrors err ≠ [] ∧
    (err.violations = [] →
      extractValidationErrors err = [{ line := 0, field := "", problem := err.msg }]) ∧
    (∀ v vs, err.violations = v :: vs →
      extractValidationErrors err = (v :: vs).map extractSingleError) := by
  refine ⟨extractValidationErrors_ne_nil err, ?_, ?_⟩
  · intro h
    unfold extractValidationErrors
    rw [h]
  · intro v vs h
    unfold extractValidationErrors
    rw [h]

/-- Witness for C6: the fallback branch on a concrete undecomposable
error. -/
theorem C6_extractor_nonempty_witness :
    extractValidationErrors { msg := "boom", violations := [] } =
      [{ line := 0, field := "", problem := "boom" }] :=
  (C6_extractor_nonempty { msg := "boom", violations := [] }).2.1 rfl

/-! ## C7 -/

/-- The scan loop returns the head of the positive sublist, default 0. -/
theorem firstPositiveLine_eq_headD (l : List Int) :
    firstPositiveLine l = (l.filter (fun x => decide (0 < x))).headD 0 := by
  induction l with
  | nil => rfl
  | cons a t ih =>
    by_cases h : 0 < a
    · simp [firstPositiveLine, List.filter_cons, h]
    · simp [firstPositiveLine, List.filter_cons, h, ih]

/-- The scan loop never returns a negative value. -/
theorem firstPositiveLine_nonneg (l : List Int) : 0 ≤ firstPositiveLine l := by
  induction l with
  | nil => simp [firstPositiveLine]
  | cons a t ih =>
    by_cases h : 0 < a
    · simpa [firstPositiveLine, h] using le_of_lt h
    · simpa [firstPositiveLine, h] using ih

/-- C7: `extractLineNumber` returns the first positive line number among
the violation's positions scanned in order, returns 0 when no position has
a positive line, and is never negative. -/
theorem C7_line_extraction (v : CueViolation) :
    extractLineNumber v = (v.lines.filter (fun x => decide (0 < x))).headD 0 ∧
    0 ≤ extractLineNumber v ∧
    ((∀ l ∈ v.lines, l ≤ 0) → extractLineNumber v = 0) := by
  refine ⟨firstPositiveLine_eq_headD v.lines, firstPositiveLine_nonneg v.lines, ?_⟩
  intro h
  rw [extractLineNumber, firstPositiveLine_eq_headD]
  have : v.lines.filter (fun x => decide (0 < x)) = [] := by
    rw [List.filter_eq_nil_iff]
    intro a ha
    simpa using not_lt.mpr (h a ha)
  rw [this]
  rfl

/-- Witness for C7: a violation with no positive position yields 0. -/
theorem C7_line_extraction_witness :
    extractLineNumber { lines := [0, -1], path := [], msg := "m" } = 0 :=
  (C7_line_extraction { lines := [0, -1], path := [], msg := "m" }).2.2 (by decide)

/-! ## C8 -/

/-- C8: format dispatch is by the lowercased file-extension suffix —
`.yaml`/`.yml` route to the YAML decoder, `.json` to the JSON decoder, and
any other extension fails, before any decoding attempt (independently of
the decoders), with an unsupported-format message naming the offending
extension and the supported set. -/
theorem C8_extension_dispatch (env : Env) (path data : String) :
    (stringToLower (fileExt path) = ".yaml" ∨ stringToLower (fileExt path) = ".yml" →
      parseConfigFile env path data = env.parseYAML path data) ∧
    (stringToLower (fileExt path) = ".json" →
      parseConfigFile env path data = env.parseJSON path data) ∧
    (stringToLower (fileExt path) ≠ ".yaml" → stringToLower (fileExt path) ≠ ".yml" →
      stringToLower (fileExt path) ≠ ".json" →
      parseConfigFile env path data =
        .error ("unsupported file format: " ++ stringToLower (fileExt path) ++
          " (supported: .yaml, .yml, .json)") ∧
      ∀ env2 : Env, parseConfigFile env2 path data = parseConfigFile env path data) := by
  refine ⟨?_, ?_, ?_⟩
  · intro h
    simp only [parseConfigFile]
    rw [if_pos h]
  · intro h
    have h1 : ¬ (stringToLower (fileExt path) = ".yaml" ∨
        stringToLower (fileExt path) = ".yml") := by
      rw [h]
      decide
    simp only [parseConfigFile]
    rw [if_neg h1, if_pos h]
  · intro ha hb hc
    have h1 : ¬ (stringToLower (fileExt path) = ".yaml" ∨
        stringToLower (fileExt path) = ".yml") := not_or.mpr ⟨ha, hb⟩
    constructor
    · simp only [parseConfigFile]
      rw [if_neg h1, if_neg hc]
    · intro env2
      simp only [parseConfigFile]
      rw [if_neg h1, if_neg hc, if_neg h1, if_neg hc]

/-- Witness for C8: a `.toml` file is rejected before decoding. -/
theorem C8_extension_dispatch_witness :
    parseConfigFile envOk "a.toml" "x" =
      Except.error "unsupported file format: .toml (supported: .yaml, .yml, .json)" := by
  have h := ((C8_extension_dispatch envOk "a.toml" "x").2.2
    (by decide) (by decide) (by decide)).1
  simpa using h

/-! ## C9 -/

/-- Decoding depends only on the decoders' behaviour at the file's own
path. -/
theorem parseConfigFile_env_agree (env1 env2 : Env) (p : String)
    (hy : env1.parseYAML p = env2.parseYAML p)
    (hj : env1.parseJSON p = env2.parseJSON p) (d : String) :
    parseConfigFile env1 p d = parseConfigFile env2 p d := by
  simp only [parseConfigFile]
  by_cases h1 : stringToLower (fileExt p) = ".yaml" ∨ stringToLower (fileExt p) = ".yml"
  · rw [if_pos h1, if_pos h1, hy]
  · by_cases h2 : stringToLower (fileExt p) = ".json"
    · rw [if_neg h1, if_neg h1, if_pos h2, if_pos h2, hj]
    · rw [if_neg h1, if_neg h1, if_neg h2, if_neg h2]

/-- A file's result depends only on the schema and on the environment's
behaviour at that file's own path. -/
theorem validateFile_env_agree (env1 env2 : Env) (schema : Schema) (p : String)
    (hr : env1.readFile p = env2.readFile p)
    (hy : env1.parseYAML p = env2.parseYAML p)
    (hj : env1.parseJSON p = env2.parseJSON p) :
    validateFile env1 schema p = validateFile env2 schema p := by
  unfold validateFile
  rw [hr]
  simp only [parseConfigFile_env_agree env1 env2 p hy hj]

/-- C9: per-file isolation. When schema compilation succeeds, the result
produced at position `i` for config path `p` depends only on the compiled
schema and on the file's own path and contents: any two runs agreeing on
the schema and on the environment's behaviour at `p` produce the same
result there, whatever the other requested files are or do. -/
theorem C9_per_file_isolation (env1 env2 : Env) (schema : Schema)
    (h1 : env1.loadSchema = .ok schema) (h2 : env2.loadSchema = .ok schema)
    (paths1 paths2 : List String) (i j : Nat) (p : String)
    (hp : paths1[i]? = some p) (hq : paths2[j]? = some p)
    (hr : env1.readFile p = env2.readFile p)
    (hy : env1.parseYAML p = env2.parseYAML p)
    (hj : env1.parseJSON p = env2.parseJSON p) :
    (ValidateFiles env1 paths1)[i]? = (ValidateFiles env2 paths2)[j]? := by
  rw [ValidateFiles_ok env1 schema h1, ValidateFiles_ok env2 schema h2,
    List.getElem?_map, List.getElem?_map, hp, hq]
  exact congrArg some (validateFile_env_agree env1 env2 schema p hr hy hj)

/-- Witness for C9: the result for `a.yaml` is unchanged when another
requested file (`b.yaml`) becomes unreadable and the input order changes. -/
theorem C9_per_file_isolation_witness :
    (ValidateFiles envOk ["a.yaml"])[0]? = (ValidateFiles envOk2 ["b.yaml", "a.yaml"])[1]? :=
  C9_per_file_isolation envOk envOk2 schemaOk rfl rfl ["a.yaml"] ["b.yaml", "a.yaml"]
    0 1 "a.yaml" rfl rfl (by rfl) rfl rfl

/-! ## C4 -/

/-- C4 counterexample: a missing `#Config` definition is not a global
pre-empting error. With a compiled schema lacking `#Config`, the results
still depend on whether each config file can be read (so files are read
and decoded), and a readable file gets a per-file "schema does not define"
error while an unreadable one gets a read error instead. -/
theorem C4_missing_def_not_global_counterexample :
    envNoDef.loadSchema = Except.ok schemaNoDef ∧
    envNoDefUnreadable.loadSchema = Except.ok schemaNoDef ∧
    schemaNoDef.hasConfigDef = false ∧
    ValidateFiles envNoDefUnreadable ["a.yaml"] ≠ ValidateFiles envNoDef ["a.yaml"] ∧
    ValidateFiles envNoDef ["a.yaml"] =
      [{ fileName := "a.yaml", isValid := false,
         errors := [{ line := 0, field := "",
                      problem := "schema does not define #Config" }] }] ∧
    ValidateFiles envNoDefUnreadable ["a.yaml"] =
      [{ fileName := "a.yaml", isValid := false,
         errors := [{ line := 0, field := "",
                      problem := "failed to read file: no such file" }] }] :=
  ⟨rfl, rfl, rfl, by decide, by decide, by decide⟩

/-- C4 (amended): when the compiled schema lacks the top-level `#Config`
definition, the error is detected per file, after that file has been read
and decoded: every config path whose read and decode succeed (and whose
value carries no error) yields a single-error invalid result with message
"schema does not define #Config", line 0 and field ""; read or decode
failures of a file take precedence for that file. -/
theorem C4_missing_def_per_file (env : Env) (schema : Schema) (p d : String)
    (config : CueValue) (hs : schema.hasConfigDef = false)
    (hr : env.readFile p = .ok d)
    (hd : parseConfigFile env p d = .ok config)
    (he : config.err = none) :
    validateFile env schema p = createErrorResult p "schema does not define #Config" ∧
    (validateFile env schema p).errors =
      [{ line := 0, field := "", problem := "schema does not define #Config" }] := by
  have h : validateFile env schema p = createErrorResult p "schema does not define #Config" := by
    unfold validateFile
    rw [hr]
    simp only []
    rw [hd]
    simp only []
    rw [he]
    simp [hs]
  exact ⟨h, by rw [h]; rfl⟩

/-- Witness for C4 (amended): a concrete readable, decodable file under a
schema lacking `#Config`. -/
theorem C4_missing_def_per_file_witness :
    validateFile envNoDef schemaNoDef "a.yaml" =
      createErrorResult "a.yaml" "schema does not define #Config" :=
  (C4_missing_def_per_file envNoDef schemaNoDef "a.yaml" "name: svc"
    { id := 0, err := none } rfl rfl (by rfl) rfl).1

/-! ## C5 -/

/-- Dropping a satisfied run twice drops it once. -/
theorem dropWhile_dropWhile {α : Type} (p : α → Bool) (l : List α) :
    (l.dropWhile p).dropWhile p = l.dropWhile p := by
  induction l with
  | nil => rfl
  | cons a t ih =>
    cases hpa : p a
    · simp [List.dropWhile_cons, hpa]
    · simp [List.dropWhile_cons, hpa, ih]

/-- The head surviving a `dropWhile` does not satisfy the predicate. -/
theorem head_of_dropWhile_eq_false {α : Type} {p : α → Bool} {l : List α} {c : α}
    (h : (l.dropWhile p).head? = some c) : p c = false := by
  have hm := List.head?_dropWhile_not p l
  rw [h] at hm
  exact hm

/-- A list whose head does not satisfy the predicate is untouched. -/
theorem dropWhile_eq_self_of_head {α : Type} {p : α → Bool} {l : List α}
    (h : ∀ c, l.head? = some c → p c = false) : l.dropWhile p = l := by
  cases l with
  | nil => rfl
  | cons a t => simp [List.dropWhile_cons, h a rfl]

/-- Right-trimming decomposes a list into the kept part and the dropped
tail. -/
theorem eq_rev_dropWhile_append {α : Type} (p : α → Bool) (l : List α) :
    l = (l.reverse.dropWhile p).reverse ++ (l.reverse.takeWhile p).reverse := by
  have h := List.takeWhile_append_dropWhile (p := p) (l := l.reverse)
  have h2 := congrArg List.reverse h
  rw [List.reverse_append, List.reverse_reverse] at h2
  exact h2.symm

/-- The head surviving a two-sided trim does not satisfy the predicate. -/
theorem head_of_trim_eq_false {α : Type} (p : α → Bool) (l : List α) {c : α}
    (h : (((l.dropWhile p).reverse.dropWhile p).reverse).head? = some c) :
    p c = false := by
  have hd := eq_rev_dropWhile_append p (l.dropWhile p)
  have hh : (l.dropWhile p).head? = some c := by
    rw [hd, List.head?_append, h]
    rfl
  exact head_of_dropWhile_eq_false hh

/-- A two-sided trim is idempotent. -/
theorem trim_trim {α : Type} (p : α → Bool) (l : List α) :
    ((((((l.dropWhile p).reverse.dropWhile p).reverse).dropWhile p).reverse).dropWhile p).reverse
      = ((l.dropWhile p).reverse.dropWhile p).reverse := by
  have h1 : (((l.dropWhile p).reverse.dropWhile p).reverse).dropWhile p
      = ((l.dropWhile p).reverse.dropWhile p).reverse :=
    dropWhile_eq_self_of_head (fun c hc => head_of_trim_eq_false p l hc)
  rw [h1, List.reverse_reverse, dropWhile_dropWhile]

/-- Quote-trimming a string twice equals quote-trimming it once. -/
theorem trimQuotes_idem (s : String) : trimQuotes (trimQuotes s) = trimQuotes s :=
  congrArg String.mk (trim_trim (fun c => c = '"') s.data)

/-- C5 counterexample: the claim is false as stated. Quote-trimming runs
after the validity filter, so a retained quoted segment can trim to an
empty, index-like or `#Config` segment: re-filtering the already-filtered
path changes it, and `#Config` and index-like segments can appear in the
formatted output. -/
theorem C5_filter_not_idempotent_counterexample :
    pathParts (pathParts ["\"\"", "a"]) ≠ pathParts ["\"\"", "a"] ∧
    formatPath (pathParts ["\"\"", "a"]) ≠ formatPath ["\"\"", "a"] ∧
    formatPath ["\"#Config\""] = "#Config" ∧
    startsWithBracket ((pathParts ["\"[0]\""]).headD "") = true := by
  exact ⟨by decide, by decide, by decide, by decide⟩

/-- C5 (amended): on every segment list whose retained segments are still
valid path elements after quote-trimming, field-path filtering is
idempotent — re-filtering the already-filtered path yields the same parts
and the same formatted path — and no empty, index-like or `#Config`
segment appears among the formatted parts. (Quote-trimming alone is always
idempotent; only segments whose quotes wrapped an invalid element break
the claim, as the counterexample shows.) -/
theorem C5_filter_idempotent_on_clean (path : List String)
    (h : ∀ q ∈ pathParts path, isValidPathElement q = true) :
    pathParts (pathParts path) = pathParts path ∧
    formatPath (pathParts path) = formatPath path ∧
    ∀ q ∈ pathParts path, q ≠ "" ∧ startsWithBracket q = false ∧ q ≠ "#Config" := by
  have hmap : (pathParts path).map trimQuotes = pathParts path := by
    have hid : ∀ q ∈ pathParts path, trimQuotes q = q := by
      intro q hq
      obtain ⟨p', hp', rfl⟩ := List.mem_map.mp hq
      exact trimQuotes_idem p'
    rw [List.map_congr_left hid]
    simp
  have h1 : pathParts (pathParts path) = pathParts path := by
    show ((pathParts path).filter isValidPathElement).map trimQuotes = pathParts path
    rw [List.filter_eq_self.mpr h, hmap]
  refine ⟨h1, ?_, ?_⟩
  · show String.intercalate "." (pathParts (pathParts path)) = formatPath path
    rw [h1]
    rfl
  · intro q hq
    have hv := h q hq
    simp only [isValidPathElement, Bool.and_eq_true, bne_iff_ne, Bool.not_eq_true'] at hv
    exact ⟨hv.1.1, hv.1.2, hv.2⟩

/-- Witness for C5 (amended): a concrete mixed segment list whose trimmed
retained segments stay valid. -/
theorem C5_filter_idempotent_on_clean_witness :
    pathParts (pathParts ["a", "\"b\"", "[0]", "", "#Config"]) =
      pathParts ["a", "\"b\"", "[0]", "", "#Config"] :=
  (C5_filter_idempotent_on_clean ["a", "\"b\"", "[0]", "", "#Config"] (by decide)).1
